import Mathlib

/-!
# Verification of the etcdap LDAP gateway protocol code

A shallow embedding of the repository's LDAP codec (the in-repo `ldap`
package: BER framing via Go's `encoding/asn1` as used by the code,
`ParseBindRequest`, `ParseSearchRequest`, `ParseFilter`,
`ParseLDAPMessage`, the `Bytes` serializers) and of the dispatch handlers
(`handleBind`, `handleSearch` in `main`), together with theorems settling
the specification's claims about them.

Bytes are modelled as `Nat` (values < 256 on every byte string the
theorems quantify over).  Go functions returning `(value, error)` pairs
become functions into `Option` (at the asn1 layer, where only
success/failure matters) or into `PRes` (at the LDAP layer, where the
result code and message of an `LDAPError` matter).  A Go runtime panic
(out-of-range slice index) is modelled by the distinguished result
`PRes.crash`.
-/

/-- Result of an LDAP-layer parse or handler: success, an `LDAPError`
with its result code and message, or a runtime crash (Go panic). -/
inductive PRes (α : Type) where
  | ok : α → PRes α
  | err : Nat → String → PRes α
  | crash : PRes α
  deriving DecidableEq, Repr

/-! ## BER framing (model of Go `encoding/asn1` as used by the code) -/

/-- Outcome of Go `parseTagAndLength`: identifier class, tag number,
constructed flag, and declared content length. -/
structure TagLen where
  cls : Nat
  tag : Nat
  isCompound : Bool
  length : Nat
  deriving DecidableEq, Repr

/-- Go `asn1.RawValue` as filled in by `Unmarshal`. -/
structure RawValue where
  Class : Nat
  Tag : Nat
  IsCompound : Bool
  Bytes : List Nat
  FullBytes : List Nat
  deriving DecidableEq, Repr

/-- Go `parseBase128Int` (used for identifier octets with tag ≥ 31):
returns the decoded tag number and the count of octets consumed.
`shifted` counts iterations as in the Go loop; `acc` is `ret64`. -/
def parseBase128 : List Nat → Nat → Nat → Option (Nat × Nat)
  | [], _, _ => none
  | d :: r, shifted, acc =>
    if shifted = 5 then none
    else if shifted = 0 ∧ d = 128 then none
    else
      let acc2 := acc * 128 + d % 128
      if d % 256 < 128 then
        if acc2 > 2 ^ 31 - 1 then none else some (acc2, shifted + 1)
      else parseBase128 r (shifted + 1) acc2

/-- The long-form length loop of Go `parseTagAndLength`: folds `count`
digit octets into the accumulator, failing on overflow (`≥ 2^23` before a
shift) and on superfluous leading zeros, as the Go code does. -/
def parseLenDigits : Nat → List Nat → Nat → Option Nat
  | 0, _, acc => some acc
  | _ + 1, [], _ => none
  | count + 1, d :: r, acc =>
    if acc ≥ 2 ^ 23 then none
    else if acc * 256 + d = 0 then none
    else parseLenDigits count r (acc * 256 + d)

/-- The length part of Go `parseTagAndLength`: returns the declared
content length and the number of length octets consumed.  Rejects
indefinite lengths and non-minimal long forms. -/
def parseLen : List Nat → Option (Nat × Nat)
  | [] => none
  | l0 :: r =>
    if l0 % 256 < 128 then some (l0 % 128, 1)
    else
      let numBytes := l0 % 128
      if numBytes = 0 then none
      else
        match parseLenDigits numBytes r 0 with
        | none => none
        | some len => if len < 128 then none else some (len, 1 + numBytes)

/-- Go `parseTagAndLength`: decodes the identifier octet(s) and the
length octets; returns the `TagLen` and the total header size. -/
def parseHeader : List Nat → Option (TagLen × Nat)
  | [] => none
  | b0 :: r =>
    let cls := b0 / 64 % 4
    let isComp := b0 / 32 % 2 = 1
    let tagLow := b0 % 32
    if tagLow = 31 then
      match parseBase128 r 0 0 with
      | none => none
      | some (t, used) =>
        if t < 31 then none
        else
          match parseLen (r.drop used) with
          | none => none
          | some (n, lused) => some (⟨cls, t, isComp, n⟩, 1 + used + lused)
    else
      match parseLen r with
      | none => none
      | some (n, lused) => some (⟨cls, tagLow, isComp, n⟩, 1 + lused)

/-- Go `asn1.Unmarshal` into a `RawValue`: parse the header, check the
declared length against the remaining input, and split off the content
and the trailing rest. -/
def unmarshalRaw (b : List Nat) : Option (RawValue × List Nat) :=
  match parseHeader b with
  | none => none
  | some (t, h) =>
    if b.length < h + t.length then none
    else
      some (⟨t.cls, t.tag, t.isCompound, (b.drop h).take t.length,
             b.take (h + t.length)⟩, b.drop (h + t.length))

/-- Go `asn1.Unmarshal` into a primitive of expected universal class and
tag (the shared tag/class/compound check of `parseField`): returns the
content octets and the rest. -/
def unmarshalPrim (cls tag : Nat) (b : List Nat) :
    Option (List Nat × List Nat) :=
  match unmarshalRaw b with
  | none => none
  | some (rv, rest) =>
    if rv.Class = cls ∧ rv.Tag = tag ∧ rv.IsCompound = false then
      some (rv.Bytes, rest)
    else none

/-- Go `asn1.Unmarshal` into a byte slice (OCTET STRING, tag 4). -/
def unmarshalOctet (b : List Nat) : Option (List Nat × List Nat) :=
  unmarshalPrim 0 4 b

/-- Go `checkInteger`: content must be non-empty and minimally encoded. -/
def intMinimal : List Nat → Bool
  | [] => false
  | [_] => true
  | a :: b :: _ => ¬(a = 0 ∧ b < 128) ∧ ¬(a = 255 ∧ b ≥ 128)

/-- Two's-complement value of big-endian content octets. -/
def intFromBytes (c : List Nat) : Int :=
  let u : Nat := c.foldl (fun a d => a * 256 + d) 0
  match c with
  | [] => 0
  | d :: _ => if d ≥ 128 then (u : Int) - 2 ^ (8 * c.length) else (u : Int)

/-- Go `asn1.Unmarshal` into an `int` (INTEGER, tag 2, `parseInt64`):
rejects empty, non-minimal, and more-than-8-byte contents. -/
def unmarshalInt (b : List Nat) : Option (Int × List Nat) :=
  match unmarshalPrim 0 2 b with
  | none => none
  | some (c, rest) =>
    if intMinimal c ∧ c.length ≤ 8 then some (intFromBytes c, rest)
    else none

/-- Go `asn1.Unmarshal` into a `bool` (BOOLEAN, tag 1, `parseBool`). -/
def unmarshalBool (b : List Nat) : Option (Bool × List Nat) :=
  match unmarshalPrim 0 1 b with
  | none => none
  | some (c, rest) =>
    match c with
    | [0] => some (false, rest)
    | [255] => some (true, rest)
    | _ => none

/-! ### BER encoding (model of Go `asn1.Marshal` on the types the code
marshals: `RawValue`, `int`, byte slices, `bool`) -/

/-- Minimal big-endian base-256 digits of `n` (empty for 0). -/
def natBE (n : Nat) : List Nat :=
  if h : n = 0 then [] else natBE (n / 256) ++ [n % 256]
  decreasing_by exact Nat.div_lt_self (Nat.pos_of_ne_zero h) (by omega)

/-- Big-endian base-256 digits of `n` padded/truncated to exactly `k`
octets (the low `8*k` bits of `n`). -/
def natBEpad (n : Nat) : Nat → List Nat
  | 0 => []
  | k + 1 => natBEpad (n / 256) k ++ [n % 256]

/-- Go length-octet encoding: short form below 128, else minimal long
form. -/
def lenEnc (n : Nat) : List Nat :=
  if n < 128 then [n] else (128 + (natBE n).length) :: natBE n

/-- Base-128 encoding of a high tag number (identifier octets after the
leading `0x1f` octet, continuation bit on all but the last). -/
def base128Enc (n : Nat) : List Nat :=
  go (n / 128) ++ [n % 128]
where
  go (m : Nat) : List Nat :=
    if h : m = 0 then [] else go (m / 128) ++ [m % 128 + 128]
  decreasing_by exact Nat.div_lt_self (Nat.pos_of_ne_zero h) (by omega)

/-- Go identifier-octet encoding for class `cls`, tag `tag`,
constructed flag `k`. -/
def headerEnc (cls tag : Nat) (k : Bool) : List Nat :=
  if tag < 31 then [cls * 64 + (if k then 32 else 0) + tag]
  else (cls * 64 + (if k then 32 else 0) + 31) :: base128Enc tag

/-- Go `asn1.Marshal` of a `RawValue{Class, Tag, IsCompound, Bytes}`:
identifier octets, minimal length octets, content. -/
def berEnc (cls tag : Nat) (k : Bool) (content : List Nat) : List Nat :=
  headerEnc cls tag k ++ lenEnc content.length ++ content

/-- Byte count of Go's minimal two's-complement `int64` marshalling
(`int64Length`). -/
def intNumBytes (i : Int) : Nat :=
  if -(2 ^ 7) ≤ i ∧ i < 2 ^ 7 then 1
  else if -(2 ^ 15) ≤ i ∧ i < 2 ^ 15 then 2
  else if -(2 ^ 23) ≤ i ∧ i < 2 ^ 23 then 3
  else if -(2 ^ 31) ≤ i ∧ i < 2 ^ 31 then 4
  else if -(2 ^ 39) ≤ i ∧ i < 2 ^ 39 then 5
  else if -(2 ^ 47) ≤ i ∧ i < 2 ^ 47 then 6
  else if -(2 ^ 55) ≤ i ∧ i < 2 ^ 55 then 7
  else 8

/-- Go `asn1.Marshal` of an `int`: INTEGER tag, length, minimal
two's-complement content. -/
def intEnc (i : Int) : List Nat :=
  let k := intNumBytes i
  [2] ++ lenEnc k ++ natBEpad (i.emod (2 ^ (8 * k))).toNat k

/-- Go `asn1.Marshal` of a byte slice: OCTET STRING. -/
def octetEnc (s : List Nat) : List Nat := berEnc 0 4 false s

/-- Go `asn1.Marshal` of a `bool`. -/
def boolEnc (v : Bool) : List Nat := [1, 1, if v then 255 else 0]

/-! ## LDAP data model (in-repo `ldap` package) -/

/-- `SaslCredentials` (mechanism LDAPString, credentials OCTET STRING). -/
structure SaslCredentials where
  Mechanism : List Nat
  Credentials : List Nat
  deriving DecidableEq, Repr

/-- The `AuthenticationChoice` values the code constructs: `Simple`
password octets or `SaslCredentials`. -/
inductive AuthenticationChoice where
  | simple : List Nat → AuthenticationChoice
  | sasl : SaslCredentials → AuthenticationChoice
  deriving DecidableEq, Repr

/-- `BindRequest`.  `Authentication` is a Go interface field, so it may
be nil (`none`). -/
structure BindRequest where
  Version : Int
  Name : List Nat
  Authentication : Option AuthenticationChoice
  deriving DecidableEq, Repr

/-- `AttributeValueAssertion` (attributeDesc, assertionValue). -/
structure AttributeValueAssertion where
  AttributeDesc : List Nat
  AssertionValue : List Nat
  deriving DecidableEq, Repr

/-- The filter values `ParseFilter` can construct: `And`, `Or`,
`EqualityMatch`, `Present` (all other CHOICE tags leave the filter nil).
The `And`/`Or` member lists hold interface values, which may be nil
(`none`): the loops in `ParseAnd`/`ParseOr` append whatever
`ParseFilter` returned, including nil filters. -/
inductive FilterP where
  | and : List (Option FilterP) → FilterP
  | or : List (Option FilterP) → FilterP
  | equalityMatch : AttributeValueAssertion → FilterP
  | present : List Nat → FilterP

/-- `SearchRequest` as filled in by `ParseSearchRequest`.  `Filter` is a
Go interface field and stays nil (`none`) when `ParseFilter` fails or
returns no value. -/
structure SearchRequest where
  BaseObject : List Nat
  Scope : Nat
  DerefAliases : Nat
  SizeLimit : Int
  TimeLimit : Int
  TypesOnly : Bool
  Filter : Option FilterP
  Attributes : List (List Nat)

/-- `LDAPResult` (resultCode, matchedDN, diagnosticMessage, referral). -/
structure LDAPResult where
  ResultCode : Int
  MatchedDN : List Nat
  DiagnosticMessage : List Nat
  Referral : Option (List (List Nat))
  deriving DecidableEq, Repr

/-- `BindResponse`: an embedded `LDAPResult` plus `ServerSaslCreds`. -/
structure BindResponse where
  result : LDAPResult
  ServerSaslCreds : List Nat
  deriving DecidableEq, Repr

/-- `Control` (controlType, criticality, controlValue). -/
structure Control where
  ControlType : List Nat
  Criticality : Bool
  ControlValue : List Nat
  deriving DecidableEq, Repr

/-- `ExtendedRequest` (requestName, requestValue). -/
structure ExtendedRequest where
  RequestName : List Nat
  RequestValue : List Nat
  deriving DecidableEq, Repr

/-- `ExtendedResponse` (responseName, responseValue). -/
structure ExtendedResponse where
  ResponseName : List Nat
  ResponseValue : List Nat
  deriving DecidableEq, Repr

/-- The protocol-operation union stored in an `LDAPMessage` by the
parser or serialized by `Bytes`.  `ParseBindResponse` returns a nil
pointer, modelled by `bindResponse none`. -/
inductive ProtocolOp where
  | bindRequest : BindRequest → ProtocolOp
  | bindResponse : Option BindResponse → ProtocolOp
  | searchRequest : SearchRequest → ProtocolOp

/-- `LDAPMessage`.  `ProtocolOp` and `Controls` are Go pointer/interface
fields, hence `Option`. -/
structure LDAPMessage where
  MessageID : Int
  ProtocolOp : Option ProtocolOp
  Controls : Option (List Control)

/-! ### BER identities declared by the PDU and filter types
(the `Class()` / `Tag()` methods, each a constant function of its
receiver) -/

/-- `func (br BindRequest) Class() int`. -/
def BindRequest.classOf (_br : BindRequest) : Int := 1
/-- `func (br BindRequest) Tag() int`. -/
def BindRequest.tagOf (_br : BindRequest) : Int := 0
/-- `func (br BindResponse) Class() int`. -/
def BindResponse.classOf (_br : BindResponse) : Int := 1
/-- `func (br BindResponse) Tag() int`. -/
def BindResponse.tagOf (_br : BindResponse) : Int := 1
/-- `func (sr SearchRequest) Class() int`. -/
def SearchRequest.classOf (_sr : SearchRequest) : Int := 1
/-- `func (sr SearchRequest) Tag() int`. -/
def SearchRequest.tagOf (_sr : SearchRequest) : Int := 3
/-- `func (er ExtendedRequest) Class() int`. -/
def ExtendedRequest.classOf (_er : ExtendedRequest) : Int := 23
/-- `func (er ExtendedRequest) Tag() int`. -/
def ExtendedRequest.tagOf (_er : ExtendedRequest) : Int := 0
/-- `func (er ExtendedResponse) Class() int`. -/
def ExtendedResponse.classOf (_er : ExtendedResponse) : Int := 24
/-- `func (er ExtendedResponse) Tag() int`. -/
def ExtendedResponse.tagOf (_er : ExtendedResponse) : Int := 0
/-- `func (s Simple) Class() int`. -/
def simpleClass : Int := 2
/-- `func (s Simple) Tag() int`. -/
def simpleTag : Int := 0

/-- The `Class()` methods of the filter types `And`, `Or`,
`EqualityMatch`, `Present` (each returns 2). -/
def FilterP.classOf : FilterP → Int
  | .and _ => 2
  | .or _ => 2
  | .equalityMatch _ => 2
  | .present _ => 2

/-- The `Tag()` methods of the filter types: `And.Tag() = 0`,
`Or.Tag() = 3`, `EqualityMatch.Tag() = 3`, `Present.Tag() = 7`. -/
def FilterP.tagOf : FilterP → Int
  | .and _ => 0
  | .or _ => 3
  | .equalityMatch _ => 3
  | .present _ => 7

/-! ### Serializers (`Bytes` methods) -/

/-- `func (s Simple) Bytes()`: a context-class tag-0 primitive holding
the password octets. -/
def simpleBytes (s : List Nat) : List Nat := berEnc 2 0 false s

/-- `func (s SaslCredentials) Bytes()`: mechanism and credentials as
OCTET STRINGs inside a universal SEQUENCE (class 0, tag 16). -/
def SaslCredentials.bytesOf (s : SaslCredentials) : List Nat :=
  berEnc 0 16 true (octetEnc s.Mechanism ++ octetEnc s.Credentials)

/-- `AuthenticationChoice` dispatched to the proper `Bytes` method. -/
def AuthenticationChoice.bytesOf : AuthenticationChoice → List Nat
  | .simple s => simpleBytes s
  | .sasl sc => sc.bytesOf

/-- `func (br BindRequest) Bytes()`: version INTEGER, name OCTET
STRING, authentication bytes, wrapped in `RawValue{Class: 1, Tag: 0,
IsCompound: true}`.  Calling it with a nil `Authentication` would
dereference a nil interface (panic), modelled by `none`. -/
def BindRequest.bytesOf (br : BindRequest) : Option (List Nat) :=
  br.Authentication.map fun a =>
    berEnc 1 0 true (intEnc br.Version ++ octetEnc br.Name ++ a.bytesOf)

/-- `func (lr LDAPResult) bytes()`: resultCode INTEGER, matchedDN and
diagnosticMessage OCTET STRINGs, then the referral URIs (each an OCTET
STRING, concatenated with no wrapper) when present. -/
def LDAPResult.bytesOf (lr : LDAPResult) : List Nat :=
  intEnc lr.ResultCode ++ octetEnc lr.MatchedDN ++
    octetEnc lr.DiagnosticMessage ++
    (match lr.Referral with
     | none => []
     | some rs => (rs.map octetEnc).flatten)

/-- `func (br BindResponse) Bytes()`: the embedded result followed by
`ServerSaslCreds` as an OCTET STRING, in a universal SEQUENCE. -/
def BindResponse.bytesOf (br : BindResponse) : List Nat :=
  berEnc 0 16 true (br.result.bytesOf ++ octetEnc br.ServerSaslCreds)

/-- `func (sr SearchRequest) Bytes()` is a stub returning no bytes. -/
def SearchRequest.bytesOf (_sr : SearchRequest) : List Nat := []

/-- `msg.ProtocolOp.Bytes()` dispatched over the union; a nil
`*BindResponse` receiver panics (`none`). -/
def ProtocolOp.bytesOf : ProtocolOp → Option (List Nat)
  | .bindRequest br => br.bytesOf
  | .bindResponse (some br) => some br.bytesOf
  | .bindResponse none => none
  | .searchRequest sr => some sr.bytesOf

/-- `func (msg LDAPMessage) Bytes()`: messageID INTEGER and the
protocol-op bytes in a universal SEQUENCE envelope.  The controls
marshalling is commented out in the source, so `Controls` is ignored.
A nil `ProtocolOp` would panic (`none`). -/
def LDAPMessage.bytesOf (msg : LDAPMessage) : Option (List Nat) :=
  match msg.ProtocolOp with
  | none => none
  | some op =>
    (op.bytesOf).map fun ob =>
      berEnc 0 16 true (intEnc msg.MessageID ++ ob)

/-! ## LDAP parsers -/

/-- `func ParseSimple(b []byte) (s Simple, err error)` returns its
argument unchanged and never fails. -/
def ParseSimple (b : List Nat) : List Nat := b

/-- `ParseSaslCredentials`: a class-2 tag-3 sequence holding a
mechanism OCTET STRING and, when bytes remain, a credentials OCTET
STRING. -/
def ParseSaslCredentials (b : List Nat) : PRes SaslCredentials :=
  match unmarshalRaw b with
  | none => .err 2 "Invalid sequence"
  | some (raw, _) =>
    if raw.Class ≠ 2 then .err 2 "Invalid class"
    else if raw.Tag ≠ 3 then .err 2 "Invalid tag"
    else
      match unmarshalOctet raw.Bytes with
      | none => .err 2 "Invalid mechanism field"
      | some (mech, rest) =>
        if rest.length > 0 then
          match unmarshalOctet rest with
          | none => .err 2 "Invalid credentials field"
          | some (creds, _) => .ok ⟨mech, creds⟩
        else .ok ⟨mech, []⟩

/-- `ParseBindRequest`: check the application-0 wrapper, read version,
name, and the raw authentication element; dispatch on the
authentication tag (0 → `ParseSimple` of the FULL bytes, 3 →
`ParseSaslCredentials`, anything else leaves `Authentication` nil);
finally reject any version other than 3. -/
def ParseBindRequest (b : List Nat) : PRes BindRequest :=
  match unmarshalRaw b with
  | none => .err 2 "Invalid sequence"
  | some (raw, _) =>
    if raw.Class ≠ 1 then .err 2 "Invalid class"
    else if raw.Tag ≠ 0 then .err 2 "Invalid tag"
    else
      match unmarshalInt raw.Bytes with
      | none => .err 2 "Invalid version field"
      | some (ver, rest) =>
        match unmarshalOctet rest with
        | none => .err 2 "Invalid name field"
        | some (name, rest2) =>
          match unmarshalRaw rest2 with
          | none => .err 2 "Invalid authentication field"
          | some (auth, _) =>
            let finish : Option AuthenticationChoice → PRes BindRequest :=
              fun a =>
                if ver ≠ 3 then .err 2 "Unsupported version"
                else .ok ⟨ver, name, a⟩
            if auth.Tag = 0 then
              finish (some (.simple (ParseSimple auth.FullBytes)))
            else if auth.Tag = 3 then
              match ParseSaslCredentials auth.FullBytes with
              | .ok sc => finish (some (.sasl sc))
              | _ => .err 2 "Invalid sasl field"
            else finish none

/-- `ParseEqualityMatch`: a wrapper element whose content is an
attributeDesc OCTET STRING followed by an assertionValue OCTET STRING. -/
def ParseEqualityMatch (b : List Nat) : PRes AttributeValueAssertion :=
  match unmarshalRaw b with
  | none => .err 2 "Invalid sequence"
  | some (raw, _) =>
    match unmarshalOctet raw.Bytes with
    | none => .err 2 "Invalid attributeDesc field"
    | some (ad, rest) =>
      match unmarshalOctet rest with
      | none => .err 2 "Invalid assertionValue field"
      | some (av, _) => .ok ⟨ad, av⟩

/-- `ParsePresent`: the content octets of the element are the attribute
description. -/
def ParsePresent (b : List Nat) : PRes (List Nat) :=
  match unmarshalRaw b with
  | none => .err 2 "Invalid present"
  | some (raw, _) => .ok raw.Bytes

/-- A successful `unmarshalRaw` consumes a header of at least two
octets, so content, full bytes and rest are all bounded by the input. -/
theorem unmarshalRaw_size {b : List Nat} {rv : RawValue} {rest : List Nat}
    (h : unmarshalRaw b = some (rv, rest)) :
    rv.Bytes.length + 2 ≤ b.length ∧ rv.FullBytes.length ≤ b.length ∧
      rest.length + 2 ≤ b.length := by
  unfold unmarshalRaw at h
  cases hp : parseHeader b with
  | none => rw [hp] at h; exact absurd h (by simp)
  | some th =>
    obtain ⟨t, hd⟩ := th
    rw [hp] at h
    by_cases hlen : b.length < hd + t.length
    · simp [hlen] at h
    · simp only [hlen, if_false] at h
      have h2 : 2 ≤ hd := by
        cases b with
        | nil => simp [parseHeader] at hp
        | cons b0 r =>
          simp only [parseHeader] at hp
          by_cases htag : b0 % 32 = 31
          · simp only [htag, if_true] at hp
            cases hb : parseBase128 r 0 0 with
            | none => rw [hb] at hp; simp at hp
            | some tu =>
              obtain ⟨tv, used⟩ := tu
              rw [hb] at hp
              by_cases hlt : tv < 31
              · simp [hlt] at hp
              · simp only [hlt, if_false] at hp
                cases hl : parseLen (r.drop used) with
                | none => rw [hl] at hp; simp at hp
                | some nl =>
                  obtain ⟨n, lused⟩ := nl
                  rw [hl] at hp
                  simp only [Option.some.injEq, Prod.mk.injEq] at hp
                  have : 1 ≤ lused := by
                    cases hdr : r.drop used with
                    | nil => rw [hdr] at hl; simp [parseLen] at hl
                    | cons l0 rr =>
                      rw [hdr] at hl
                      simp only [parseLen] at hl
                      by_cases hsh : l0 % 256 < 128
                      · simp only [hsh, if_true, Option.some.injEq,
                          Prod.mk.injEq] at hl
                        omega
                      · simp only [hsh, if_false] at hl
                        by_cases hz : l0 % 128 = 0
                        · simp [hz] at hl
                        · simp only [hz, if_false] at hl
                          cases hds : parseLenDigits (l0 % 128) rr 0 with
                          | none => rw [hds] at hl; simp at hl
                          | some len =>
                            rw [hds] at hl
                            by_cases hsm : len < 128
                            · simp [hsm] at hl
                            · simp only [hsm, if_false,
                                Option.some.injEq, Prod.mk.injEq] at hl
                              omega
                  omega
          · simp only [htag, if_false] at hp
            cases hl : parseLen r with
            | none => rw [hl] at hp; simp at hp
            | some nl =>
              obtain ⟨n, lused⟩ := nl
              rw [hl] at hp
              simp only [Option.some.injEq, Prod.mk.injEq] at hp
              have : 1 ≤ lused := by
                cases r with
                | nil => simp [parseLen] at hl
                | cons l0 rr =>
                  simp only [parseLen] at hl
                  by_cases hsh : l0 % 256 < 128
                  · simp only [hsh, if_true, Option.some.injEq,
                      Prod.mk.injEq] at hl
                    omega
                  · simp only [hsh, if_false] at hl
                    by_cases hz : l0 % 128 = 0
                    · simp [hz] at hl
                    · simp only [hz, if_false] at hl
                      cases hds : parseLenDigits (l0 % 128) rr 0 with
                      | none => rw [hds] at hl; simp at hl
                      | some len =>
                        rw [hds] at hl
                        by_cases hsm : len < 128
                        · simp [hsm] at hl
                        · simp only [hsm, if_false, Option.some.injEq,
                            Prod.mk.injEq] at hl
                          omega
              omega
      obtain ⟨hrv, hrest⟩ := Prod.mk.injEq .. ▸ (Option.some.injEq .. ▸ h)
      subst hrv hrest
      refine ⟨?_, ?_, ?_⟩ <;>
        simp only [List.length_take, List.length_drop] <;> omega

mutual

/-- `ParseFilter`: re-reads the element and dispatches on its CHOICE
tag: 0 and 1 recurse via `ParseAnd`/`ParseOr`; 3 and 7 parse
equality/present; tags 2, 4, 5, 6, 8, 9 are printed and skipped,
leaving the filter nil; any other tag is an error. -/
def ParseFilter (b : List Nat) : PRes (Option FilterP) :=
  match h : unmarshalRaw b with
  | none => .err 2 "Invalid sequence"
  | some (raw, _) =>
    if raw.Tag = 0 then
      match ParseAnd raw.FullBytes with
      | .ok l => .ok (some (.and l))
      | .err c m => .err c m
      | .crash => .crash
    else if raw.Tag = 1 then
      match ParseOr raw.FullBytes with
      | .ok l => .ok (some (.or l))
      | .err c m => .err c m
      | .crash => .crash
    else if raw.Tag = 2 then .ok none
    else if raw.Tag = 3 then
      match ParseEqualityMatch raw.FullBytes with
      | .ok em => .ok (some (.equalityMatch em))
      | .err c m => .err c m
      | .crash => .crash
    else if raw.Tag = 4 ∨ raw.Tag = 5 ∨ raw.Tag = 6 then .ok none
    else if raw.Tag = 7 then
      match ParsePresent raw.FullBytes with
      | .ok p => .ok (some (.present p))
      | .err c m => .err c m
      | .crash => .crash
    else if raw.Tag = 8 ∨ raw.Tag = 9 then .ok none
    else .err 2 "Invalid tag"
termination_by 3 * b.length + 2
decreasing_by
  all_goals
    have hs := unmarshalRaw_size h
    omega

/-- `ParseAnd`: re-reads the wrapper element, then parses the member
elements of its content one at a time. -/
def ParseAnd (b : List Nat) : PRes (List (Option FilterP)) :=
  match h : unmarshalRaw b with
  | none => .err 2 "Invalid and"
  | some (rawAnd, _) => parseFilterElems rawAnd.Bytes
termination_by 3 * b.length + 1
decreasing_by
  all_goals
    have hs := unmarshalRaw_size h
    omega

/-- `ParseOr`: same loop as `ParseAnd` over the or-wrapper. -/
def ParseOr (b : List Nat) : PRes (List (Option FilterP)) :=
  match h : unmarshalRaw b with
  | none => .err 2 "Invalid or"
  | some (rawOr, _) => parseFilterElems rawOr.Bytes
termination_by 3 * b.length + 1
decreasing_by
  all_goals
    have hs := unmarshalRaw_size h
    omega

/-- The member loop shared by `ParseAnd`/`ParseOr`: until the content
is exhausted, read one element and run `ParseFilter` on its full
bytes, appending the result (possibly nil). -/
def parseFilterElems (rest : List Nat) : PRes (List (Option FilterP)) :=
  if rest.length = 0 then .ok []
  else
    match h : unmarshalRaw rest with
    | none => .err 2 "Invalid filter"
    | some (rawFilter, rest2) =>
      match ParseFilter rawFilter.FullBytes with
      | .ok f =>
        (match parseFilterElems rest2 with
         | .ok fs => .ok (f :: fs)
         | .err c m => .err c m
         | .crash => .crash)
      | .err c m => .err c m
      | .crash => .crash
termination_by 3 * rest.length + 3
decreasing_by
  all_goals
    have hs := unmarshalRaw_size h
    omega

end

/-- The element loop of `ParseAttributeSelection`: while bytes remain,
read one element and append its content octets. -/
def parseAttrElems (rest : List Nat) : PRes (List (List Nat)) :=
  if rest.length = 0 then .ok []
  else
    match h : unmarshalRaw rest with
    | none => .err 2 "Invalid attributes"
    | some (rawAttr, rest2) =>
      match parseAttrElems rest2 with
      | .ok attrs => .ok (rawAttr.Bytes :: attrs)
      | .err c m => .err c m
      | .crash => .crash
termination_by rest.length
decreasing_by
  have := unmarshalRaw_size h; omega

/-- `ParseAttributeSelection`: read the sequence wrapper, then collect
the content octets of each member element. -/
def ParseAttributeSelection (b : List Nat) : PRes (List (List Nat)) :=
  match unmarshalRaw b with
  | none => .err 2 "Invalid sequence"
  | some (raw, _) => parseAttrElems raw.Bytes

/-- `ParseSearchRequest`, with the source's control flow kept exactly:
the scope and derefAliases elements are read as raw values and their
FIRST content octet is indexed without a bounds check (`Bytes[0]`,
modelled as `.crash` on empty content); the error from `ParseFilter`
is assigned but never checked (a failed filter parse leaves the filter
nil and parsing continues); the error from `ParseAttributeSelection`
is assigned and then returned by the final naked `return` of the named
return values. -/
def ParseSearchRequest (b : List Nat) : PRes SearchRequest :=
  match unmarshalRaw b with
  | none => .err 2 "Invalid sequence"
  | some (raw, _) =>
    if raw.Class ≠ 1 then .err 2 "Invalid class"
    else if raw.Tag ≠ 3 then .err 2 "Invalid tag"
    else
      match unmarshalOctet raw.Bytes with
      | none => .err 2 "Invalid baseObject field"
      | some (baseObject, rest1) =>
        match unmarshalRaw rest1 with
        | none => .err 2 "Invalid scope field"
        | some (scope, rest2) =>
          match scope.Bytes with
          | [] => .crash
          | s0 :: _ =>
            match unmarshalRaw rest2 with
            | none => .err 2 "Invalid derefAliases field"
            | some (deref, rest3) =>
              match deref.Bytes with
              | [] => .crash
              | d0 :: _ =>
                match unmarshalInt rest3 with
                | none => .err 2 "Invalid sizeLimit field"
                | some (sizeLimit, rest4) =>
                  match unmarshalInt rest4 with
                  | none => .err 2 "Invalid timeLimit field"
                  | some (timeLimit, rest5) =>
                    match unmarshalBool rest5 with
                    | none => .err 2 "Invalid typesOnly field"
                    | some (typesOnly, rest6) =>
                      match unmarshalRaw rest6 with
                      | none => .err 2 "Invalid filter field"
                      | some (filter, rest7) =>
                        let f : Option FilterP :=
                          match ParseFilter filter.FullBytes with
                          | .ok f => f
                          | _ => none
                        match unmarshalRaw rest7 with
                        | none => .err 2 "Invalid attributes field"
                        | some (attributes, _) =>
                          match ParseAttributeSelection
                              attributes.FullBytes with
                          | .err c m => .err c m
                          | .crash => .crash
                          | .ok attrs =>
                            .ok ⟨baseObject, s0, d0, sizeLimit,
                                 timeLimit, typesOnly, f, attrs⟩

/-- `func ParseBindResponse(b []byte) (res *BindResponse, err error)`
is a stub: it returns a nil pointer and no error. -/
def ParseBindResponse (_b : List Nat) : PRes (Option BindResponse) :=
  .ok none

/-- `ParseLDAPMessage`: read the outer envelope as a raw value, the
messageID INTEGER, and the protocolOp as a raw value; if bytes remain,
they must parse as one raw value (the controls, which are then
discarded — `msg.Controls` is never assigned); dispatch on the
protocolOp tag (0 bind request, 1 bind response, 3 search request;
anything else is an `OperationsError`).  Returns the parsed message
and the bytes following the envelope. -/
def ParseLDAPMessage (b : List Nat) : PRes (LDAPMessage × List Nat) :=
  match unmarshalRaw b with
  | none => .err 2 "Invalid LDAPMessage"
  | some (rawEnvelope, rest) =>
    match unmarshalInt rawEnvelope.Bytes with
    | none => .err 2 "Invalid MessageID"
    | some (mid, r1) =>
      match unmarshalRaw r1 with
      | none => .err 2 "Invalid ProtocolOp"
      | some (rawProtocolOp, r2) =>
        if r2.length > 0 ∧ unmarshalRaw r2 = none then
          .err 2 "Invalid Controls"
        else if rawProtocolOp.Tag = 0 then
          match ParseBindRequest rawProtocolOp.FullBytes with
          | .ok br => .ok (⟨mid, some (.bindRequest br), none⟩, rest)
          | .err c m => .err c m
          | .crash => .crash
        else if rawProtocolOp.Tag = 1 then
          match ParseBindResponse rawProtocolOp.FullBytes with
          | .ok obr => .ok (⟨mid, some (.bindResponse obr), none⟩, rest)
          | .err c m => .err c m
          | .crash => .crash
        else if rawProtocolOp.Tag = 3 then
          match ParseSearchRequest rawProtocolOp.FullBytes with
          | .ok sr => .ok (⟨mid, some (.searchRequest sr), none⟩, rest)
          | .err c m => .err c m
          | .crash => .crash
        else .err 1 "Unsupported ProtocolOp"

/-! ## Dispatch handlers (`main` package, over the server library's
message types).  The backend and the SHA-256 password hash are external
collaborators, passed in as function parameters. -/

/-- `type User struct` of the `main` package. -/
structure User where
  Dn : String
  Cn : String
  Name : String
  Password : String
  Email : String
  deriving DecidableEq, Repr

/-- The filter union of the server library's message package, as
inspected by `handleSearch` (only the `FilterEqualityMatch` variant is
ever destructured; the others are carried opaquely). -/
inductive GFilter where
  | and : List GFilter → GFilter
  | or : List GFilter → GFilter
  | not : GFilter → GFilter
  | equalityMatch : String → String → GFilter
  | substrings : String → GFilter
  | greaterOrEqual : String → String → GFilter
  | lessOrEqual : String → String → GFilter
  | present : String → GFilter
  | approxMatch : String → String → GFilter
  | extensibleMatch : String → GFilter

/-- The search-request fields `handleSearch` reads. -/
structure GSearchRequest where
  baseObject : String
  filter : GFilter
  attributes : List String

/-- One PDU written by `handleSearch`: a result entry or the final
SearchResultDone with its result code. -/
inductive SearchOut where
  | entry : String → List (String × String) → SearchOut
  | done : Nat → SearchOut
  deriving DecidableEq, Repr

/-- `handleBind`: anonymous success for empty DN and password;
otherwise `be.Get(dn)`; ANY backend error becomes `NoSuchObject` (32);
a stored password different from the hex SHA-256 of the supplied
password becomes `InvalidCredentials` (49); otherwise success (0).
Returns the result code and diagnostic message of the single
`BindResponse` written.  `hashHex` stands for
`hex.EncodeToString(sha256.Sum256(pw))`. -/
def handleBind (hashHex : String → String)
    (beGet : String → Except String User) (dn pw : String) :
    Nat × String :=
  if dn = "" ∧ pw = "" then (0, "")
  else
    match beGet dn with
    | .error _ => (32, "No such object")
    | .ok user =>
      if user.Password ≠ hashHex pw then (49, "Invalid credentials")
      else (0, "")

/-- `handleSearch`: only an equality filter on attribute `cn` is
translated into the backend predicate; every other filter shape sets
`invalidFilter` and yields a single `SearchResultDone(OperationsError)`.
A backend error also yields a single done(1).  On success, one entry
per user (projecting only the requested attributes among cn, name,
email) followed by done(0). -/
def handleSearch
    (beSearch : String → List (String × String) → Except String (List User))
    (req : GSearchRequest) : List SearchOut :=
  let fm : Bool × List (String × String) :=
    match req.filter with
    | .equalityMatch a v =>
      if a = "cn" then (false, [("cn", v)]) else (true, [])
    | _ => (true, [])
  if fm.1 then [.done 1]
  else
    match beSearch req.baseObject fm.2 with
    | .error _ => [.done 1]
    | .ok users =>
      (users.map fun u =>
        SearchOut.entry u.Dn (req.attributes.filterMap fun a =>
          if a = "cn" then some ("cn", u.Cn)
          else if a = "name" then some ("name", u.Name)
          else if a = "email" then some ("email", u.Email)
          else none)) ++ [.done 0]

/-! ## Round-trip and truncation lemmas for the BER layer -/

theorem natBE_pos {n : Nat} (h : n ≠ 0) :
    natBE n = natBE (n / 256) ++ [n % 256] := by
  rw [natBE]; simp [h]

theorem natBE_zero : natBE 0 = [] := by rw [natBE]; simp

theorem natBE_length_le : ∀ (k n : Nat), n < 256 ^ k → (natBE n).length ≤ k := by
  intro k
  induction k with
  | zero => intro n hn; interval_cases n; simp [natBE_zero]
  | succ k ih =>
    intro n hn
    by_cases h0 : n = 0
    · simp [h0, natBE_zero]
    · rw [natBE_pos h0]
      have : n / 256 < 256 ^ k := by
        rw [Nat.div_lt_iff_lt_mul (by omega)]
        calc n < 256 ^ (k + 1) := hn
        _ = 256 ^ k * 256 := by ring
      have := ih (n / 256) this
      simp only [List.length_append, List.length_cons, List.length_nil]
      omega

theorem natBE_ne_nil {n : Nat} (h : n ≠ 0) : natBE n ≠ [] := by
  rw [natBE_pos h]; simp

theorem parseLenDigits_append (xs : List Nat) :
    ∀ (count2 : Nat) (ys : List Nat) (acc : Nat),
    parseLenDigits (xs.length + count2) (xs ++ ys) acc =
      match parseLenDigits xs.length xs acc with
      | some acc2 => parseLenDigits count2 ys acc2
      | none => none := by
  induction xs with
  | nil => intro count2 ys acc; simp [parseLenDigits]
  | cons d r ih =>
    intro count2 ys acc
    simp only [List.length_cons, List.cons_append]
    rw [Nat.add_right_comm r.length 1 count2]
    simp only [parseLenDigits]
    by_cases hg : acc ≥ 2 ^ 23
    · rw [if_pos hg, if_pos hg]
    · rw [if_neg hg, if_neg hg]
      by_cases hz : acc * 256 + d = 0
      · rw [if_pos hz, if_pos hz]
      · rw [if_neg hz, if_neg hz]
        exact ih count2 ys (acc * 256 + d)

theorem parseLenDigits_short :
    ∀ (xs : List Nat) (count acc : Nat), xs.length < count →
    parseLenDigits count xs acc = none := by
  intro xs
  induction xs with
  | nil =>
    intro count acc h
    cases count with
    | zero => omega
    | succ c => simp [parseLenDigits]
  | cons d r ih =>
    intro count acc h
    cases count with
    | zero => omega
    | succ c =>
      simp only [parseLenDigits]
      by_cases hg : acc ≥ 2 ^ 23
      · rw [if_pos hg]
      · rw [if_neg hg]
        by_cases hz : acc * 256 + d = 0
        · rw [if_pos hz]
        · rw [if_neg hz]
          exact ih c _ (by simp at h; omega)

set_option maxRecDepth 4096 in
theorem parseLenDigits_natBE (n : Nat) :
    ∀ acc, (0 < acc ∨ 0 < n) →
    acc * 256 ^ (natBE n).length + n < 2 ^ 31 →
    parseLenDigits (natBE n).length (natBE n) acc =
      some (acc * 256 ^ (natBE n).length + n) := by
  induction n using Nat.strong_induction_on with
  | _ n ih =>
    intro acc hpos hbound
    by_cases h0 : n = 0
    · subst h0
      rw [natBE_zero]
      simp only [List.length_nil, pow_zero, mul_one, Nat.add_zero,
        parseLenDigits]
    · rw [natBE_pos h0] at hbound ⊢
      have hlen : (natBE (n / 256) ++ [n % 256]).length
          = (natBE (n / 256)).length + 1 := by simp
      have hx : acc * 256 ^ ((natBE (n / 256)).length + 1)
          = acc * 256 ^ (natBE (n / 256)).length * 256 := by ring
      have hb : acc * 256 ^ (natBE (n / 256)).length * 256 + n < 2 ^ 31 := by
        rw [hlen, hx] at hbound; exact hbound
      have key : parseLenDigits (natBE (n / 256)).length (natBE (n / 256)) acc
          = some (acc * 256 ^ (natBE (n / 256)).length + n / 256) := by
        by_cases hsmall : n / 256 = 0
        · rw [hsmall, natBE_zero]
          simp only [List.length_nil, pow_zero, mul_one, Nat.add_zero,
            parseLenDigits]
        · exact ih (n / 256) (Nat.div_lt_self (by omega) (by omega)) acc
            (Or.inr (by omega)) (by omega)
      have hguard : ¬ (acc * 256 ^ (natBE (n / 256)).length + n / 256 ≥ 2 ^ 23) := by
        omega
      have hnz : (acc * 256 ^ (natBE (n / 256)).length + n / 256) * 256
          + n % 256 ≠ 0 := by
        rcases hpos with h | h
        · have hpow : 0 < 256 ^ (natBE (n / 256)).length :=
            Nat.pos_pow_of_pos _ (by omega)
          have : 0 < acc * 256 ^ (natBE (n / 256)).length := Nat.mul_pos h hpow
          omega
        · omega
      have hone : ∀ (d a : Nat), parseLenDigits 1 [d] a
          = if a ≥ 2 ^ 23 then none
            else if a * 256 + d = 0 then none else some (a * 256 + d) :=
        fun _ _ => rfl
      have hfin : parseLenDigits 1 [n % 256]
          (acc * 256 ^ (natBE (n / 256)).length + n / 256)
          = some (acc * 256 ^ (natBE (n / 256)).length * 256 + n) := by
        rw [hone, if_neg hguard, if_neg hnz]
        congr 1
        omega
      have happ := parseLenDigits_append (natBE (n / 256)) 1 [n % 256] acc
      rw [key] at happ
      have happ2 : parseLenDigits ((natBE (n / 256)).length + 1)
          (natBE (n / 256) ++ [n % 256]) acc
          = parseLenDigits 1 [n % 256]
              (acc * 256 ^ (natBE (n / 256)).length + n / 256) := by
        simpa using happ
      rw [hlen, happ2, hfin]
      congr 1
      omega

theorem lenEnc_length_le (n : Nat) (hn : n < 2 ^ 31) :
    (lenEnc n).length ≤ 5 := by
  by_cases h : n < 128
  · simp [lenEnc, h]
  · have hle : (natBE n).length ≤ 4 :=
      natBE_length_le 4 n (by norm_num; omega)
    simp only [lenEnc, h, if_false, List.length_cons]
    omega

theorem parseLen_enc (n : Nat) (rest : List Nat) (hn : n < 2 ^ 31) :
    parseLen (lenEnc n ++ rest) = some (n, (lenEnc n).length) := by
  by_cases h : n < 128
  · have h256 : n % 256 = n := Nat.mod_eq_of_lt (by omega)
    have h128 : n % 128 = n := Nat.mod_eq_of_lt h
    simp [lenEnc, h, parseLen, h256, h128]
  · have hL4 : (natBE n).length ≤ 4 :=
      natBE_length_le 4 n (by norm_num; omega)
    have hL1 : natBE n ≠ [] := natBE_ne_nil (by omega)
    have hLpos : 1 ≤ (natBE n).length := by
      cases he : natBE n with
      | nil => exact absurd he hL1
      | cons a l => simp
    simp only [lenEnc, h, if_false, List.cons_append]
    show parseLen ((128 + (natBE n).length) :: (natBE n ++ rest)) = _
    have hmod : (128 + (natBE n).length) % 256 = 128 + (natBE n).length :=
      Nat.mod_eq_of_lt (by omega)
    have hnotlt : ¬ ((128 + (natBE n).length) % 256 < 128) := by omega
    have hnb : (128 + (natBE n).length) % 128 = (natBE n).length := by
      rw [Nat.add_mod_left]
      exact Nat.mod_eq_of_lt (by omega)
    simp only [parseLen, hnotlt, if_false, hnb]
    have hz : ¬ ((natBE n).length = 0) := by omega
    simp only [hz, if_false]
    have hdig : parseLenDigits (natBE n).length (natBE n ++ rest) 0
        = some n := by
      have happ := parseLenDigits_append (natBE n) 0 rest 0
      have hcore := parseLenDigits_natBE n 0 (Or.inr (by omega))
        (by simpa using hn)
      rw [Nat.add_zero] at happ
      rw [happ, hcore]
      simp [parseLenDigits]
    rw [hdig]
    have : ¬ (n < 128) := h
    simp only [this, if_false, List.length_cons]
    rw [Nat.add_comm 1 (natBE n).length]

theorem parseHeader_enc (c t : Nat) (k : Bool) (n : Nat) (rest : List Nat)
    (hc : c < 4) (ht : t < 31) (hn : n < 2 ^ 31) :
    parseHeader (headerEnc c t k ++ lenEnc n ++ rest)
      = some (⟨c, t, k, n⟩, 1 + (lenEnc n).length) := by
  have main : ∀ (kk : Nat), kk = 32 ∨ kk = 0 →
      decide ((c * 64 + kk + t) / 32 % 2 = 1) = k →
      parseHeader ((c * 64 + kk + t) :: (lenEnc n ++ rest)) =
        some (⟨c, t, k, n⟩, 1 + (lenEnc n).length) := by
    intro kk hkk hdec
    have hmod32 : (c * 64 + kk + t) % 32 = t := by
      rcases hkk with h | h <;> subst h <;> omega
    have hne31 : ¬ ((c * 64 + kk + t) % 32 = 31) := by omega
    have hcls : (c * 64 + kk + t) / 64 % 4 = c := by
      rcases hkk with h | h <;> subst h <;> omega
    simp only [parseHeader, hne31, if_false, parseLen_enc n rest hn]
    rw [hcls, hmod32, hdec]
  cases k with
  | true =>
    have hB : headerEnc c t true = [c * 64 + 32 + t] := by
      simp [headerEnc, ht]
    rw [hB]
    exact main 32 (Or.inl rfl)
      (by simp only [decide_eq_true_iff]; omega)
  | false =>
    have hB : headerEnc c t false = [c * 64 + 0 + t] := by
      simp [headerEnc, ht]
    rw [hB]
    exact main 0 (Or.inr rfl)
      (by simp only [decide_eq_false_iff_not]; omega)

theorem headerEnc_length (c t : Nat) (k : Bool) (ht : t < 31) :
    (headerEnc c t k).length = 1 := by
  cases k <;> simp [headerEnc, ht]

theorem unmarshalRaw_enc (c t : Nat) (k : Bool) (content rest : List Nat)
    (hc : c < 4) (ht : t < 31) (hn : content.length < 2 ^ 31) :
    unmarshalRaw (berEnc c t k content ++ rest)
      = some (⟨c, t, k, content, berEnc c t k content⟩, rest) := by
  have hhd : (headerEnc c t k).length = 1 := headerEnc_length c t k ht
  have hsplit : berEnc c t k content ++ rest
      = (headerEnc c t k ++ lenEnc content.length) ++ (content ++ rest) := by
    simp [berEnc, List.append_assoc]
  have hph : parseHeader (berEnc c t k content ++ rest)
      = some (⟨c, t, k, content.length⟩,
          1 + (lenEnc content.length).length) := by
    rw [hsplit]
    have := parseHeader_enc c t k content.length (content ++ rest) hc ht hn
    rw [List.append_assoc] at this ⊢
    exact this
  have hlenHL : (headerEnc c t k ++ lenEnc content.length).length
      = 1 + (lenEnc content.length).length := by
    simp [hhd]
  have hblen : (berEnc c t k content ++ rest).length
      = 1 + (lenEnc content.length).length + content.length
        + rest.length := by
    simp only [hsplit, List.length_append, hhd]
    omega
  unfold unmarshalRaw
  simp only [hph]
  rw [if_neg (by omega)]
  have hdrop : (berEnc c t k content ++ rest).drop
      (1 + (lenEnc content.length).length) = content ++ rest := by
    rw [hsplit]
    exact List.drop_left' hlenHL
  have htake : (content ++ rest).take content.length = content :=
    List.take_left' rfl
  have hblen2 : (berEnc c t k content).length
      = 1 + (lenEnc content.length).length + content.length := by
    simp only [berEnc, List.length_append, hhd]
    try omega
  have hfull : (berEnc c t k content ++ rest).take
      (1 + (lenEnc content.length).length + content.length)
      = berEnc c t k content := List.take_left' hblen2
  have hrest : (berEnc c t k content ++ rest).drop
      (1 + (lenEnc content.length).length + content.length) = rest :=
    List.drop_left' hblen2
  rw [hdrop, htake, hfull, hrest]

theorem parseHeader_cons_low (B : Nat) (r : List Nat)
    (hB : ¬ (B % 32 = 31)) :
    parseHeader (B :: r)
      = match parseLen r with
        | none => none
        | some (n, lused) =>
          some (⟨B / 64 % 4, B % 32, decide (B / 32 % 2 = 1), n⟩,
                1 + lused) := by
  simp only [parseHeader, hB, if_false]

theorem parseLen_take_none (n m : Nat) (hn : n < 2 ^ 31)
    (hm : m < (lenEnc n).length) :
    parseLen ((lenEnc n).take m) = none := by
  by_cases h : n < 128
  · have : (lenEnc n).length = 1 := by simp [lenEnc, h]
    have hm0 : m = 0 := by omega
    subst hm0
    simp [parseLen]
  · have hL4 : (natBE n).length ≤ 4 :=
      natBE_length_le 4 n (by norm_num; omega)
    have hL1 : 1 ≤ (natBE n).length := by
      have := @natBE_ne_nil n (by omega)
      cases he : natBE n with
      | nil => exact absurd he this
      | cons a l => simp
    simp only [lenEnc, h, if_false] at hm ⊢
    simp only [List.length_cons] at hm
    cases m with
    | zero => simp [parseLen]
    | succ m2 =>
      simp only [List.take_succ_cons]
      have hmod : (128 + (natBE n).length) % 256
          = 128 + (natBE n).length := Nat.mod_eq_of_lt (by omega)
      have hnotlt : ¬ ((128 + (natBE n).length) % 256 < 128) := by omega
      have hnb : (128 + (natBE n).length) % 128 = (natBE n).length := by
        rw [Nat.add_mod_left]
        exact Nat.mod_eq_of_lt (by omega)
      simp only [parseLen, hnotlt, if_false, hnb]
      have hz : ¬ ((natBE n).length = 0) := by omega
      simp only [hz, if_false]
      have hshort : parseLenDigits (natBE n).length ((natBE n).take m2) 0
          = none := by
        apply parseLenDigits_short
        simp only [List.length_take]
        omega
      rw [hshort]

theorem unmarshalRaw_take_none_core (B : Nat) (lenE content : List Nat)
    (j : Nat) (clen : Nat)
    (hB31 : ¬ (B % 32 = 31))
    (hlenparse : ∀ rest, parseLen (lenE ++ rest) = some (clen, lenE.length))
    (hlenshort : ∀ m, m < lenE.length → parseLen (lenE.take m) = none)
    (hj : j < 1 + lenE.length + clen) :
    unmarshalRaw ((B :: (lenE ++ content)).take j) = none := by
  cases j with
  | zero => simp [unmarshalRaw, parseHeader]
  | succ j2 =>
    simp only [List.take_succ_cons]
    by_cases hshort : j2 < lenE.length
    · have htk : (lenE ++ content).take j2 = lenE.take j2 :=
        List.take_append_of_le_length (by omega)
      rw [htk]
      have hpl : parseLen (lenE.take j2) = none := hlenshort j2 hshort
      simp only [unmarshalRaw, parseHeader_cons_low B _ hB31, hpl]
    · have htk : (lenE ++ content).take j2
          = lenE ++ content.take (j2 - lenE.length) := by
        rw [List.take_append_eq_append_take]
        congr 1
        exact List.take_of_length_le (by omega)
      rw [htk]
      have hpl := hlenparse (content.take (j2 - lenE.length))
      simp only [unmarshalRaw, parseHeader_cons_low B _ hB31, hpl]
      have hlen : (B :: (lenE ++ content.take (j2 - lenE.length))).length
          = 1 + lenE.length + (content.take (j2 - lenE.length)).length := by
        simp only [List.length_cons, List.length_append]
        omega
      rw [if_pos]
      simp only [hlen, List.length_take]
      omega

theorem unmarshalRaw_take_none (c t : Nat) (k : Bool) (content : List Nat)
    (j : Nat) (hc : c < 4) (ht : t < 31) (hn : content.length < 2 ^ 31)
    (hj : j < (berEnc c t k content).length) :
    unmarshalRaw ((berEnc c t k content).take j) = none := by
  have hhd : (headerEnc c t k).length = 1 := headerEnc_length c t k ht
  have hblen : (berEnc c t k content).length
      = 1 + (lenEnc content.length).length + content.length := by
    simp only [berEnc, List.length_append, hhd]
    try omega
  have hlp : ∀ rest, parseLen (lenEnc content.length ++ rest)
      = some (content.length, (lenEnc content.length).length) := by
    intro rest
    exact parseLen_enc content.length rest hn
  have hls : ∀ m, m < (lenEnc content.length).length →
      parseLen ((lenEnc content.length).take m) = none := by
    intro m hm
    exact parseLen_take_none content.length m hn hm
  have hB31 : ¬ ((c * 64 + (if k then 32 else 0) + t) % 32 = 31) := by
    have hmod : (c * 64 + (if k then 32 else 0) + t) % 32 = t := by
      cases k
      · show (c * 64 + 0 + t) % 32 = t
        omega
      · show (c * 64 + 32 + t) % 32 = t
        omega
    omega
  have hcore := unmarshalRaw_take_none_core
    (c * 64 + (if k then 32 else 0) + t)
    (lenEnc content.length) content j content.length
    hB31 hlp hls (by omega)
  have hshape : berEnc c t k content
      = (c * 64 + (if k then 32 else 0) + t)
        :: (lenEnc content.length ++ content) := by
    simp [berEnc, headerEnc, ht]
  rw [hshape]
  exact hcore

theorem unmarshalOctet_enc (s rest : List Nat) (hs : s.length < 2 ^ 31) :
    unmarshalOctet (octetEnc s ++ rest) = some (s, rest) := by
  unfold unmarshalOctet unmarshalPrim octetEnc
  simp only [unmarshalRaw_enc 0 4 false s rest (by norm_num) (by norm_num) hs]
  simp

theorem intEnc_three : intEnc 3 = berEnc 0 2 false [3] := by rfl

theorem unmarshalInt_enc3 (rest : List Nat) :
    unmarshalInt (intEnc 3 ++ rest) = some (3, rest) := by
  rw [intEnc_three]
  unfold unmarshalInt unmarshalPrim
  simp only [unmarshalRaw_enc 0 2 false [3] rest (by norm_num) (by norm_num)
    (by norm_num)]
  simp [intMinimal, intFromBytes]

theorem intEnc_zero : intEnc 0 = berEnc 0 2 false [0] := by rfl

theorem unmarshalInt_enc0 (rest : List Nat) :
    unmarshalInt (intEnc 0 ++ rest) = some (0, rest) := by
  rw [intEnc_zero]
  unfold unmarshalInt unmarshalPrim
  simp only [unmarshalRaw_enc 0 2 false [0] rest (by norm_num) (by norm_num)
    (by norm_num)]
  simp [intMinimal, intFromBytes]

theorem boolEnc_false : boolEnc false = berEnc 0 1 false [0] := by rfl

theorem unmarshalBool_encF (rest : List Nat) :
    unmarshalBool (boolEnc false ++ rest) = some (false, rest) := by
  rw [boolEnc_false]
  unfold unmarshalBool unmarshalPrim
  simp only [unmarshalRaw_enc 0 1 false [0] rest (by norm_num) (by norm_num)
    (by norm_num)]
  simp

theorem unmarshalRaw_enc_nil (c t : Nat) (k : Bool) (content : List Nat)
    (hc : c < 4) (ht : t < 31) (hn : content.length < 2 ^ 31) :
    unmarshalRaw (berEnc c t k content)
      = some (⟨c, t, k, content, berEnc c t k content⟩, []) := by
  have := unmarshalRaw_enc c t k content [] hc ht hn
  rwa [List.append_nil] at this

theorem intEnc3_length : (intEnc 3).length = 3 := by rfl

theorem octetEnc_length (s : List Nat) :
    (octetEnc s).length = 1 + (lenEnc s.length).length + s.length := by
  simp only [octetEnc, berEnc, List.length_append,
    headerEnc_length 0 4 false (by norm_num)]
  try omega

theorem berEnc_length (c t : Nat) (k : Bool) (content : List Nat)
    (ht : t < 31) :
    (berEnc c t k content).length
      = 1 + (lenEnc content.length).length + content.length := by
  simp only [berEnc, List.length_append, headerEnc_length c t k ht]
  try omega

/-- Parsing an encoded version-3 `BindRequest` whose authentication
element is any BER element with a tag other than 0 and 3: the parse
succeeds and `Authentication` is left nil. -/
theorem ParseBindRequest_enc_other (name payload : List Nat)
    (c2 t2 : Nat) (k2 : Bool) (hc2 : c2 < 4) (ht2 : t2 < 31)
    (h0 : t2 ≠ 0) (h3 : t2 ≠ 3)
    (hname : name.length < 2 ^ 23) (hp : payload.length < 2 ^ 23) :
    ParseBindRequest (berEnc 1 0 true
        (intEnc 3 ++ octetEnc name ++ berEnc c2 t2 k2 payload))
      = .ok ⟨3, name, none⟩ := by
  have hLn := lenEnc_length_le name.length (by omega)
  have hLp := lenEnc_length_le payload.length (by omega)
  have hcontent : (intEnc 3 ++ octetEnc name
      ++ berEnc c2 t2 k2 payload).length < 2 ^ 31 := by
    simp only [List.length_append, intEnc3_length, octetEnc_length,
      berEnc_length c2 t2 k2 payload ht2]
    omega
  unfold ParseBindRequest
  rw [unmarshalRaw_enc_nil 1 0 true _ (by norm_num) (by norm_num) hcontent]
  simp only
  rw [if_neg (by norm_num), if_neg (by norm_num)]
  rw [List.append_assoc, unmarshalInt_enc3]
  simp only
  rw [unmarshalOctet_enc name _ (by omega)]
  simp only
  rw [unmarshalRaw_enc_nil c2 t2 k2 payload hc2 ht2 (by omega)]
  simp only
  rw [if_neg (by simpa using h0), if_neg (by simpa using h3)]
  simp

/-- Parsing an encoded version-3 `BindRequest` with Simple
authentication: the parse succeeds, version and name are recovered, but
the authentication comes back as `Simple` of the FULL BER bytes of the
authentication element (header octets included), not the original
password octets. -/
theorem ParseBindRequest_enc_simple (name s : List Nat)
    (hname : name.length < 2 ^ 23) (hs : s.length < 2 ^ 23) :
    ParseBindRequest (berEnc 1 0 true
        (intEnc 3 ++ octetEnc name ++ simpleBytes s))
      = .ok ⟨3, name, some (.simple (berEnc 2 0 false s))⟩ := by
  have hLn := lenEnc_length_le name.length (by omega)
  have hLp := lenEnc_length_le s.length (by omega)
  have hcontent : (intEnc 3 ++ octetEnc name ++ simpleBytes s).length
      < 2 ^ 31 := by
    simp only [List.length_append, intEnc3_length, octetEnc_length,
      simpleBytes, berEnc_length 2 0 false s (by norm_num)]
    omega
  unfold ParseBindRequest
  rw [unmarshalRaw_enc_nil 1 0 true _ (by norm_num) (by norm_num) hcontent]
  simp only
  rw [if_neg (by norm_num), if_neg (by norm_num)]
  rw [List.append_assoc, unmarshalInt_enc3]
  simp only
  rw [unmarshalOctet_enc name _ (by omega)]
  simp only [simpleBytes]
  rw [unmarshalRaw_enc_nil 2 0 false s (by norm_num) (by norm_num) (by omega)]
  simp [ParseSimple]

/-- `ParseFilter` on an encoded present filter (context tag 7). -/
theorem ParseFilter_present_enc (p : List Nat) (hp : p.length < 2 ^ 31) :
    ParseFilter (berEnc 2 7 false p) = .ok (some (.present p)) := by
  rw [ParseFilter]
  rw [unmarshalRaw_enc_nil 2 7 false p (by norm_num) (by norm_num) hp]
  simp only
  rw [if_neg (by norm_num), if_neg (by norm_num), if_neg (by norm_num),
    if_neg (by norm_num), if_neg (by norm_num), if_pos (by norm_num)]
  unfold ParsePresent
  rw [unmarshalRaw_enc_nil 2 7 false p (by norm_num) (by norm_num) hp]

/-- `ParseFilter` on an encoded substrings filter (context tag 4):
no error is reported and the filter is left nil. -/
theorem ParseFilter_substrings_enc (p : List Nat) (k : Bool)
    (hp : p.length < 2 ^ 31) :
    ParseFilter (berEnc 2 4 k p) = .ok none := by
  rw [ParseFilter]
  rw [unmarshalRaw_enc_nil 2 4 k p (by norm_num) (by norm_num) hp]
  simp only
  rw [if_neg (by norm_num), if_neg (by norm_num), if_neg (by norm_num),
    if_neg (by norm_num), if_pos (by norm_num)]

/-- `ParseAttributeSelection` on an encoded empty selection. -/
theorem ParseAttributeSelection_empty :
    ParseAttributeSelection (berEnc 0 16 true []) = .ok [] := by
  unfold ParseAttributeSelection
  rw [unmarshalRaw_enc_nil 0 16 true [] (by norm_num) (by norm_num)
    (by norm_num)]
  simp only
  rw [parseAttrElems]
  simp

/-- A well-formed `SearchRequest` encoding whose scope content octet is
`v`: baseObject `"b"`, derefAliases 0, sizeLimit 0, timeLimit 0,
typesOnly false, a present filter on `"cn"`, and an empty attribute
selection. -/
def mkSearchReqBytes (v : Nat) : List Nat :=
  berEnc 1 3 true
    (octetEnc [98] ++ (berEnc 0 10 false [v] ++ (berEnc 0 10 false [0]
      ++ (intEnc 0 ++ (intEnc 0 ++ (boolEnc false
      ++ (berEnc 2 7 false [99, 110] ++ berEnc 0 16 true [])))))))

/-- `ParseSearchRequest` accepts `mkSearchReqBytes v` for EVERY scope
octet `v`, copying `v` into the scope field unvalidated. -/
theorem ParseSearchRequest_mk (v : Nat) :
    ParseSearchRequest (mkSearchReqBytes v)
      = .ok ⟨[98], v, 0, 0, 0, false, some (.present [99, 110]), []⟩ := by
  have hc : (octetEnc [98] ++ (berEnc 0 10 false [v] ++ (berEnc 0 10 false [0]
      ++ (intEnc 0 ++ (intEnc 0 ++ (boolEnc false
      ++ (berEnc 2 7 false [99, 110] ++ berEnc 0 16 true []))))))).length
      < 2 ^ 31 := by
    simp only [List.length_append, octetEnc_length,
      berEnc_length 0 10 false _ (by norm_num),
      berEnc_length 2 7 false _ (by norm_num),
      berEnc_length 0 16 true _ (by norm_num), intEnc_zero, boolEnc_false,
      berEnc_length 0 2 false _ (by norm_num),
      berEnc_length 0 1 false _ (by norm_num)]
    simp [lenEnc]
  unfold ParseSearchRequest mkSearchReqBytes
  rw [unmarshalRaw_enc_nil 1 3 true _ (by norm_num) (by norm_num) hc]
  simp only
  rw [if_neg (by norm_num), if_neg (by norm_num)]
  rw [unmarshalOctet_enc [98] _ (by norm_num)]
  simp only
  rw [unmarshalRaw_enc 0 10 false [v] _ (by norm_num) (by norm_num)
    (by norm_num)]
  simp only
  rw [unmarshalRaw_enc 0 10 false [0] _ (by norm_num) (by norm_num)
    (by norm_num)]
  simp only
  rw [unmarshalInt_enc0]
  simp only
  rw [unmarshalInt_enc0]
  simp only
  rw [unmarshalBool_encF]
  simp only
  rw [unmarshalRaw_enc 2 7 false [99, 110] _ (by norm_num) (by norm_num)
    (by norm_num)]
  simp only
  rw [ParseFilter_present_enc [99, 110] (by norm_num)]
  simp only
  rw [unmarshalRaw_enc_nil 0 16 true [] (by norm_num) (by norm_num)
    (by norm_num)]
  simp only
  rw [ParseAttributeSelection_empty]

/-- Every successful `LDAPMessage.bytesOf` output is a single
universal-SEQUENCE BER element. -/
theorem bytesOf_shape (m : LDAPMessage) (bs : List Nat)
    (hb : m.bytesOf = some bs) :
    ∃ content, bs = berEnc 0 16 true content := by
  unfold LDAPMessage.bytesOf at hb
  split at hb
  · exact Option.noConfusion hb
  · rename_i op heq
    cases hov : op.bytesOf with
    | none => rw [hov] at hb; exact Option.noConfusion hb
    | some ob =>
      rw [hov] at hb
      simp only [Option.map_some', Option.some.injEq] at hb
      exact ⟨intEnc m.MessageID ++ ob, hb.symm⟩

/-! ## Claim theorems -/

/-- C2: truncating a validly encoded LDAP message at any byte boundary
short of its end makes `ParseLDAPMessage` (and therefore every PDU
parser below it) return the `ProtocolError` "Invalid LDAPMessage" — in
particular the result is an error, never `PRes.crash` (no out-of-bounds
access on the scope/derefAliases octets, which are only read after the
envelope parses) and never a silently misparsed message. -/
theorem C2_truncation_robustness (m : LDAPMessage) (bs : List Nat)
    (j : Nat) (hb : m.bytesOf = some bs) (hlen : bs.length < 2 ^ 31)
    (hj : j < bs.length) :
    ParseLDAPMessage (bs.take j) = .err 2 "Invalid LDAPMessage" := by
  obtain ⟨content, hc⟩ := bytesOf_shape m bs hb
  subst hc
  have hb16 := berEnc_length 0 16 true content (by norm_num)
  have hcl : content.length < 2 ^ 31 := by omega
  unfold ParseLDAPMessage
  rw [unmarshalRaw_take_none 0 16 true content j (by norm_num)
    (by norm_num) hcl hj]

/-- Witness for C2: a concrete bind message truncated after 5 octets. -/
theorem C2_witness :
    ParseLDAPMessage (([48, 14, 2, 1, 1, 96, 9, 2, 1, 3, 4, 0, 128, 2,
        112, 119] : List Nat).take 5) = .err 2 "Invalid LDAPMessage" :=
  C2_truncation_robustness
    ⟨1, some (.bindRequest ⟨3, [], some (.simple [112, 119])⟩), none⟩
    [48, 14, 2, 1, 1, 96, 9, 2, 1, 3, 4, 0, 128, 2, 112, 119] 5
    (by decide) (by decide) (by decide)

/-- C10: controls never cross the envelope: every successfully parsed
`LDAPMessage` has a nil `Controls` field (the trailing control element
is read only for well-formedness and discarded), and `Bytes` does not
depend on the `Controls` field at all. -/
theorem C10_controls_dropped :
    (∀ (b : List Nat) (msg : LDAPMessage) (rest : List Nat),
        ParseLDAPMessage b = .ok (msg, rest) → msg.Controls = none) ∧
    (∀ (mid : Int) (op : Option ProtocolOp)
        (c1 c2 : Option (List Control)),
        LDAPMessage.bytesOf ⟨mid, op, c1⟩
          = LDAPMessage.bytesOf ⟨mid, op, c2⟩) := by
  constructor
  · intro b msg rest h
    unfold ParseLDAPMessage at h
    repeat' split at h
    all_goals
      first
        | exact PRes.noConfusion h
        | (simp only [PRes.ok.injEq, Prod.mk.injEq] at h
           rw [← h.1])
  · intro mid op c1 c2
    rfl

/-- Witness for C10: a concrete bind message parses successfully with a
nil `Controls` field. -/
theorem C10_witness :
    (⟨1, some (.bindRequest ⟨3, [], some (.simple [128, 2, 112, 119])⟩),
        none⟩ : LDAPMessage).Controls = none :=
  C10_controls_dropped.1
    [48, 14, 2, 1, 1, 96, 9, 2, 1, 3, 4, 0, 128, 2, 112, 119]
    ⟨1, some (.bindRequest ⟨3, [], some (.simple [128, 2, 112, 119])⟩),
      none⟩
    [] (by rfl)

/-- C4: bind dispatch — empty DN and empty credential give anonymous
success; otherwise a backend Get failure (the entry reported absent)
gives `NoSuchObject` (32); an entry whose stored credential does not
match the hashed supplied credential gives `InvalidCredentials` (49);
a matching credential gives success (0). -/
theorem C4_bind_dispatch (hashHex : String → String)
    (beGet : String → Except String User) (dn pw : String) :
    (dn = "" ∧ pw = "" → handleBind hashHex beGet dn pw = (0, "")) ∧
    (¬(dn = "" ∧ pw = "") → ∀ e, beGet dn = .error e →
        (handleBind hashHex beGet dn pw).1 = 32) ∧
    (¬(dn = "" ∧ pw = "") → ∀ u, beGet dn = .ok u →
        u.Password ≠ hashHex pw →
        (handleBind hashHex beGet dn pw).1 = 49) ∧
    (¬(dn = "" ∧ pw = "") → ∀ u, beGet dn = .ok u →
        u.Password = hashHex pw →
        (handleBind hashHex beGet dn pw).1 = 0) := by
  refine ⟨?_, ?_, ?_, ?_⟩
  · intro h
    simp [handleBind, h]
  · intro h e he
    simp [handleBind, h, he]
  · intro h u hu hne
    simp [handleBind, h, hu, hne]
  · intro h u hu heq
    simp [handleBind, h, hu, heq]

/-- Witness for C4: the anonymous bind and the no-such-object branch at
concrete inputs. -/
theorem C4_witness :
    handleBind (fun s => s) (fun _ => .error "not found") "" "" = (0, "")
    ∧ (handleBind (fun s => s) (fun _ => .error "not found")
        "cn=mark" "pw").1 = 32 :=
  ⟨(C4_bind_dispatch (fun s => s) (fun _ => .error "not found") "" "").1
      ⟨rfl, rfl⟩,
   (C4_bind_dispatch (fun s => s) (fun _ => .error "not found")
      "cn=mark" "pw").2.1 (by simp) "not found" rfl⟩

/-- C6 counterexample: the scope octet 5 lies outside
{BaseObject = 0, SingleLevel = 1, WholeSubtree = 2}, yet
`ParseSearchRequest` succeeds and stores scope 5 instead of failing
with `ProtocolError`. -/
theorem C6_counterexample :
    ParseSearchRequest (mkSearchReqBytes 5)
      = .ok ⟨[98], 5, 0, 0, 0, false, some (.present [99, 110]), []⟩
    ∧ ¬((5 : Nat) = 0 ∨ (5 : Nat) = 1 ∨ (5 : Nat) = 2) :=
  ⟨ParseSearchRequest_mk 5, by decide⟩

/-- C6 (amended): `ParseSearchRequest` does not validate the scope at
all: for every scope octet `v` it accepts the request and copies `v`
into the scope field unchanged. -/
theorem C6_amended_scope_unvalidated (v : Nat) (hv : v < 256) :
    ParseSearchRequest (mkSearchReqBytes v)
      = .ok ⟨[98], v, 0, 0, 0, false, some (.present [99, 110]), []⟩ :=
  ParseSearchRequest_mk v

/-- Witness for C6: the out-of-range scope octet 7 is accepted. -/
theorem C6_witness :
    ParseSearchRequest (mkSearchReqBytes 7)
      = .ok ⟨[98], 7, 0, 0, 0, false, some (.present [99, 110]), []⟩ :=
  C6_amended_scope_unvalidated 7 (by decide)

/-- C7 counterexample: `Or.Tag()` returns 3, not the RFC4511 CHOICE
tag 1, and `ExtendedRequest.Class()` returns 23 (its value confused
with the application tag), not the application class code 1. -/
theorem C7_counterexample :
    FilterP.tagOf (.or []) = 3 ∧ ¬ (FilterP.tagOf (.or []) = 1)
    ∧ ExtendedRequest.classOf ⟨[], []⟩ = 23
    ∧ ¬ (ExtendedRequest.classOf ⟨[], []⟩ = 1) := by
  refine ⟨rfl, by decide, rfl, by decide⟩

/-- C7 (amended): the BER identities the code actually declares:
BindRequest class 1 tag 0, BindResponse class 1 tag 1, SearchRequest
class 1 tag 3 (per RFC4511), but ExtendedRequest class 23 tag 0 and
ExtendedResponse class 24 tag 0 (class and tag conflated), and filter
tags And = 0, EqualityMatch = 3, Present = 7 as in RFC4511 while
Or = 3 (not 1); the filter Class() methods all return 2. -/
theorem C7_amended_tags (br : BindRequest) (bp : BindResponse)
    (sr : SearchRequest) (er : ExtendedRequest) (ep : ExtendedResponse)
    (l1 l2 : List (Option FilterP)) (ava : AttributeValueAssertion)
    (p : List Nat) :
    br.classOf = 1 ∧ br.tagOf = 0 ∧
    bp.classOf = 1 ∧ bp.tagOf = 1 ∧
    sr.classOf = 1 ∧ sr.tagOf = 3 ∧
    er.classOf = 23 ∧ er.tagOf = 0 ∧
    ep.classOf = 24 ∧ ep.tagOf = 0 ∧
    FilterP.classOf (.and l1) = 2 ∧ FilterP.tagOf (.and l1) = 0 ∧
    FilterP.classOf (.or l2) = 2 ∧ FilterP.tagOf (.or l2) = 3 ∧
    FilterP.classOf (.equalityMatch ava) = 2 ∧
    FilterP.tagOf (.equalityMatch ava) = 3 ∧
    FilterP.classOf (.present p) = 2 ∧ FilterP.tagOf (.present p) = 7 := by
  repeat' constructor

/-- C9: a version-3 bind encoding whose authentication element carries
any (single-octet) tag other than 0 and 3 parses successfully, with a
nil `Authentication` field — no error is reported. -/
theorem C9_unknown_auth_tag (name payload : List Nat) (c2 t2 : Nat)
    (k2 : Bool) (hc2 : c2 < 4) (ht2 : t2 < 31) (h0 : t2 ≠ 0)
    (h3 : t2 ≠ 3) (hname : name.length < 2 ^ 23)
    (hp : payload.length < 2 ^ 23) :
    ParseBindRequest (berEnc 1 0 true
        (intEnc 3 ++ octetEnc name ++ berEnc c2 t2 k2 payload))
      = .ok ⟨3, name, none⟩ :=
  ParseBindRequest_enc_other name payload c2 t2 k2 hc2 ht2 h0 h3 hname hp

/-- Witness for C9: an authentication element with context tag 5 is
silently accepted. -/
theorem C9_witness :
    ParseBindRequest (berEnc 1 0 true
        (intEnc 3 ++ octetEnc [97] ++ berEnc 2 5 false [1, 2]))
      = .ok ⟨3, [97], none⟩ :=
  C9_unknown_auth_tag [97] [1, 2] 2 5 false (by decide) (by decide)
    (by decide) (by decide) (by decide) (by decide)

/-- C1 counterexample: the round trip fails for a concrete BindRequest
with Simple authentication: the parsed request carries `Simple` of the
full BER bytes of the authentication element, not the password. -/
theorem C1_counterexample :
    BindRequest.bytesOf ⟨3, [], some (.simple [112, 119])⟩
      = some [96, 9, 2, 1, 3, 4, 0, 128, 2, 112, 119]
    ∧ ParseBindRequest [96, 9, 2, 1, 3, 4, 0, 128, 2, 112, 119]
      = .ok ⟨3, [], some (.simple [128, 2, 112, 119])⟩
    ∧ (⟨3, [], some (.simple [128, 2, 112, 119])⟩ : BindRequest)
      ≠ ⟨3, [], some (.simple [112, 119])⟩ :=
  ⟨by decide, by decide, by decide⟩

/-- C1 (amended): parsing the serialization of a version-3 BindRequest
always succeeds and recovers version and name, but not the
authentication value: Simple comes back as the full BER encoding of
the authentication element, and Sasl comes back nil (the encoder emits
a universal SEQUENCE, tag 16, which the decoder's CHOICE dispatch does
not recognize). -/
theorem C1_amended_roundtrip (name s mech creds : List Nat)
    (hname : name.length < 2 ^ 23) (hs : s.length < 2 ^ 23)
    (hm : mech.length < 2 ^ 20) (hcr : creds.length < 2 ^ 20) :
    (∃ bs, (⟨3, name, some (.simple s)⟩ : BindRequest).bytesOf = some bs
      ∧ ParseBindRequest bs
        = .ok ⟨3, name, some (.simple (berEnc 2 0 false s))⟩) ∧
    (∃ bs, (⟨3, name, some (.sasl ⟨mech, creds⟩)⟩ : BindRequest).bytesOf
        = some bs
      ∧ ParseBindRequest bs = .ok ⟨3, name, none⟩) := by
  constructor
  · exact ⟨_, rfl, ParseBindRequest_enc_simple name s hname hs⟩
  · have hpl : (octetEnc mech ++ octetEnc creds).length < 2 ^ 23 := by
      simp only [List.length_append, octetEnc_length]
      have hl1 := lenEnc_length_le mech.length (by omega)
      have hl2 := lenEnc_length_le creds.length (by omega)
      omega
    exact ⟨_, rfl, ParseBindRequest_enc_other name
      (octetEnc mech ++ octetEnc creds) 0 16 true (by norm_num)
      (by norm_num) (by norm_num) (by norm_num) hname hpl⟩

/-- Witness for C1's amended theorem at concrete inputs. -/
theorem C1_witness :
    (∃ bs, (⟨3, [], some (.simple [112, 119])⟩ : BindRequest).bytesOf
        = some bs
      ∧ ParseBindRequest bs
        = .ok ⟨3, [], some (.simple (berEnc 2 0 false [112, 119]))⟩) ∧
    (∃ bs, (⟨3, [], some (.sasl ⟨[], []⟩)⟩ : BindRequest).bytesOf
        = some bs
      ∧ ParseBindRequest bs = .ok ⟨3, [], none⟩) :=
  C1_amended_roundtrip [] [112, 119] [] [] (by decide) (by decide)
    (by decide) (by decide)

/-- C3 counterexample: a Present filter on `cn` — which the claim says
search dispatch evaluates — is rejected: the handler emits a single
`SearchResultDone(OperationsError)` and no entry, even though the
backend holds a matching user. -/
theorem C3_counterexample :
    handleSearch
      (fun _ _ => .ok [⟨"cn=mark,ou=People,dc=example,dc=com", "mark",
        "Mark", "h", "mark@example.com"⟩])
      ⟨"ou=People,dc=example,dc=com", .present "cn", ["cn"]⟩
      = [.done 1]
    ∧ (SearchOut.done 1) ≠ (SearchOut.done 0) :=
  ⟨by decide, by decide⟩

/-- C3 (amended): search dispatch evaluates ONLY equality filters on
attribute `cn`; every other filter — And, Or, Present included, and
equality on any other attribute — produces a single
`SearchResultDone(OperationsError)` and no entries; the failure is
semantic: e.g. a substrings filter element decodes without error (the
filter is merely left nil). -/
theorem C3_amended_unsupported_filter :
    (∀ (be : String → List (String × String) → Except String (List User))
        (req : GSearchRequest),
        (∀ a v, req.filter = .equalityMatch a v → a ≠ "cn") →
        handleSearch be req = [.done 1]) ∧
    ParseFilter (berEnc 2 4 false [1, 2]) = .ok none := by
  constructor
  · intro be req hf
    cases hflt : req.filter with
    | equalityMatch a v =>
      have ha := hf a v hflt
      simp [handleSearch, hflt, ha]
    | _ => simp [handleSearch, hflt]
  · exact ParseFilter_substrings_enc [1, 2] false (by norm_num)

/-- Witness for C3's amended theorem: an And filter at concrete inputs. -/
theorem C3_witness :
    handleSearch (fun _ _ => .ok []) ⟨"", .and [], []⟩ = [.done 1] :=
  C3_amended_unsupported_filter.1 (fun _ _ => .ok []) ⟨"", .and [], []⟩
    (fun _ _ h => GFilter.noConfusion h)

/-- C8 counterexample: a backend failure during bind (e.g. a
connectivity error) is answered with `NoSuchObject` (32), not with
`operationsError` (1) as the claim states. -/
theorem C8_counterexample :
    handleBind (fun s => s) (fun _ => .error "connection refused")
      "cn=mark" "pw" = (32, "No such object")
    ∧ (32 : Nat) ≠ 1 :=
  ⟨by decide, by decide⟩

/-- C8 (amended): a backend failure during search yields a single
`SearchResultDone(operationsError)`, but a backend failure during bind
is conflated with entry-not-found and yields `NoSuchObject` (32); in
both cases the handler writes a response rather than aborting. -/
theorem C8_amended_backend_errors :
    (∀ (hashHex : String → String)
        (beGet : String → Except String User) (dn pw e : String),
        ¬(dn = "" ∧ pw = "") → beGet dn = .error e →
        handleBind hashHex beGet dn pw = (32, "No such object")) ∧
    (∀ (beSearch : String → List (String × String) →
          Except String (List User))
        (req : GSearchRequest) (v e : String),
        req.filter = .equalityMatch "cn" v →
        beSearch req.baseObject [("cn", v)] = .error e →
        handleSearch beSearch req = [.done 1]) := by
  constructor
  · intro hashHex beGet dn pw e hne he
    simp [handleBind, hne, he]
  · intro beSearch req v e hflt hbe
    simp [handleSearch, hflt, hbe]

/-- Witness for C8's amended theorem at concrete inputs. -/
theorem C8_witness :
    handleBind (fun s => s) (fun _ => .error "boom") "cn=x" "p"
      = (32, "No such object")
    ∧ handleSearch (fun _ _ => .error "boom")
        ⟨"dc=example", .equalityMatch "cn" "mark", []⟩ = [.done 1] :=
  ⟨C8_amended_backend_errors.1 (fun s => s) (fun _ => .error "boom")
      "cn=x" "p" "boom" (by simp) rfl,
   C8_amended_backend_errors.2 (fun _ _ => .error "boom")
      ⟨"dc=example", .equalityMatch "cn" "mark", []⟩ "mark" "boom"
      rfl rfl⟩

/-- C5: whenever the version field of a BindRequest byte string decodes
to anything other than 3, `ParseBindRequest` fails with a
`ProtocolError` (result code 2) — never an unsupported-authentication
code; and when the version decodes to 3, the version check itself never
rejects the request (the "Unsupported version" error cannot occur). -/
theorem C5_version_check (b : List Nat) (raw : RawValue)
    (rest0 : List Nat) (v : Int) (r : List Nat)
    (hbytes : ∀ x ∈ b, x < 256)
    (h1 : unmarshalRaw b = some (raw, rest0))
    (h2 : raw.Class = 1) (h3 : raw.Tag = 0)
    (h4 : unmarshalInt raw.Bytes = some (v, r)) :
    (v ≠ 3 → ∃ msg, ParseBindRequest b = .err 2 msg) ∧
    (v = 3 → ParseBindRequest b ≠ .err 2 "Unsupported version") := by
  unfold ParseBindRequest
  rw [h1]
  simp only
  rw [if_neg (by simp [h2]), if_neg (by simp [h3]), h4]
  simp only
  constructor
  · intro hv
    simp only [if_pos hv]
    repeat' split
    all_goals exact ⟨_, rfl⟩
  · intro hv
    subst hv
    simp only [if_neg (show ¬((3 : Int) ≠ 3) by norm_num)]
    repeat' split
    all_goals simp

/-- Witness for C5: a concrete version-2 bind encoding fails with a
`ProtocolError`. -/
theorem C5_witness :
    ∃ msg, ParseBindRequest [96, 7, 2, 1, 2, 4, 0, 128, 0]
      = .err 2 msg :=
  (C5_version_check [96, 7, 2, 1, 2, 4, 0, 128, 0]
    ⟨1, 0, true, [2, 1, 2, 4, 0, 128, 0], [96, 7, 2, 1, 2, 4, 0, 128, 0]⟩
    [] 2 [4, 0, 128, 0] (by decide) (by decide) (by decide) (by decide)
    (by decide)).1 (by decide)
